import Mathlib

/-!
Verification of the ColorClash simulation engine (`GameEngine` in
`src/client/src/components/SimulationGame.tsx`) against its natural-language
specification.

The engine is shallowly embedded: JavaScript numbers are modelled as real
numbers, the mutable circle array as a `List Circle` threaded through explicit
state-passing, and the ambient pseudo-random generator (`Math.random`) and id
generator (`Date.now`-based string ids) as injected functions `rand : ℕ → ℝ`
and `ids : ℕ → String`.  Purely visual side effects (canvas rendering, the
transient particle system) never read or write agent state in the source and
are elided from the embedding.
-/

namespace ColorClash

/-- The three agent colors (`GameColor` in `types.ts`). -/
inductive GameColor where
  | blue
  | red
  | green
deriving DecidableEq, Repr, Fintype

/-- Arena shapes (`ArenaShape` in `types.ts`). -/
inductive ArenaShape where
  | square
  | circle
  | hexagon
  | triangle
deriving DecidableEq, Repr

/-- Result of `GameEngine.getColorRelationship`. -/
inductive Relationship where
  | attraction
  | repulsion
  | neutral
deriving DecidableEq, Repr

/-- An agent (`Circle` in `types.ts`): id, position, velocity, color, diameter. -/
structure Circle where
  id : String
  x : ℝ
  y : ℝ
  vx : ℝ
  vy : ℝ
  color : GameColor
  size : ℝ

instance : Inhabited Circle :=
  ⟨{ id := "", x := 0, y := 0, vx := 0, vy := 0, color := .blue, size := 0 }⟩

/-- Geometry the boundary handlers read: canvas extents, playfield
(`PLAYFIELD_WIDTH`/`PLAYFIELD_HEIGHT`) extents, and the arena shape. -/
structure Config where
  canvasW : ℝ
  canvasH : ℝ
  fieldW : ℝ
  fieldH : ℝ
  shape : ArenaShape

namespace GameEngine

/-- `CIRCLE_SIZE` constant. -/
def CIRCLE_SIZE : ℝ := 25

/-- `SPEED` constant (base cruising speed). -/
def SPEED : ℝ := 2.5

/-- `MAGNETIC_RANGE` constant (force-field interaction radius). -/
def MAGNETIC_RANGE : ℝ := 75

/-- `ATTRACTION_FORCE` constant. -/
def ATTRACTION_FORCE : ℝ := 0.15

/-- `REPULSION_FORCE` constant. -/
def REPULSION_FORCE : ℝ := 0.2

/-- Euclidean norm of a velocity, as computed inline throughout the source
(`Math.sqrt(vx*vx + vy*vy)`). -/
noncomputable def norm2 (vx vy : ℝ) : ℝ := Real.sqrt (vx * vx + vy * vy)

/-- Center distance from `c` to `o`, as computed inline in
`applyMagneticForces`, `isColliding` and `applyBounce`. -/
noncomputable def distBetween (c o : Circle) : ℝ :=
  Real.sqrt ((o.x - c.x) * (o.x - c.x) + (o.y - c.y) * (o.y - c.y))

/-- `GameEngine.getColorRelationship`: blue chases red and flees green, green
chases blue and flees red, red chases green and flees blue; everything else
(same color) is neutral. -/
def getColorRelationship (currentColor otherColor : GameColor) : Relationship :=
  match currentColor, otherColor with
  | .blue, .red => .attraction
  | .blue, .green => .repulsion
  | .green, .blue => .attraction
  | .green, .red => .repulsion
  | .red, .green => .attraction
  | .red, .blue => .repulsion
  | _, _ => .neutral

/-- The dominance condition tested (twice, with the arguments swapped) in
`GameEngine.resolveBattle`: blue beats red, green beats blue, red beats green. -/
def beats : GameColor → GameColor → Bool
  | .blue, .red => true
  | .green, .blue => true
  | .red, .green => true
  | _, _ => false

/-- `GameEngine.resolveBattle`: returns the winner/loser pair, or
`(none, none)` when neither color beats the other (same colors). -/
def resolveBattle (circle1 circle2 : Circle) : Option Circle × Option Circle :=
  if beats circle1.color circle2.color then (some circle1, some circle2)
  else if beats circle2.color circle1.color then (some circle2, some circle1)
  else (none, none)

/-- The force that `otherCircle` contributes to `currentCircle` inside the
`forEach` of `GameEngine.applyMagneticForces`: zero when the other is the
current circle itself or shares its color, zero outside `MAGNETIC_RANGE` or at
exactly zero distance, otherwise the linear-falloff attraction/repulsion along
the normalized direction vector. -/
noncomputable def magneticContribution (currentCircle otherCircle : Circle) : ℝ × ℝ :=
  if currentCircle.id = otherCircle.id ∨ currentCircle.color = otherCircle.color then
    (0, 0)
  else if distBetween currentCircle otherCircle > MAGNETIC_RANGE
      ∨ distBetween currentCircle otherCircle = 0 then (0, 0)
  else
    match getColorRelationship currentCircle.color otherCircle.color with
    | .attraction =>
        ((otherCircle.x - currentCircle.x) / distBetween currentCircle otherCircle
            * (ATTRACTION_FORCE * (1 - distBetween currentCircle otherCircle / MAGNETIC_RANGE)),
         (otherCircle.y - currentCircle.y) / distBetween currentCircle otherCircle
            * (ATTRACTION_FORCE * (1 - distBetween currentCircle otherCircle / MAGNETIC_RANGE)))
    | .repulsion =>
        (-((otherCircle.x - currentCircle.x) / distBetween currentCircle otherCircle
            * (REPULSION_FORCE * (1 - distBetween currentCircle otherCircle / MAGNETIC_RANGE))),
         -((otherCircle.y - currentCircle.y) / distBetween currentCircle otherCircle
            * (REPULSION_FORCE * (1 - distBetween currentCircle otherCircle / MAGNETIC_RANGE))))
    | .neutral => (0, 0)

/-- The accumulated `(totalForceX, totalForceY)` of
`GameEngine.applyMagneticForces`. -/
noncomputable def magneticTotal (currentCircle : Circle) (env : List Circle) : ℝ × ℝ :=
  env.foldl
    (fun acc o =>
      (acc.1 + (magneticContribution currentCircle o).1,
       acc.2 + (magneticContribution currentCircle o).2))
    (0, 0)

/-- The speed limit at the end of `GameEngine.applyMagneticForces`: if the
current speed exceeds `SPEED * 1.8`, both velocity components are scaled by
`maxSpeed / currentSpeed`. -/
noncomputable def clampSpeed (circle : Circle) : Circle :=
  let currentSpeed := Real.sqrt (circle.vx * circle.vx + circle.vy * circle.vy)
  let maxSpeed := SPEED * 1.8
  if currentSpeed > maxSpeed then
    { circle with
      vx := circle.vx * (maxSpeed / currentSpeed),
      vy := circle.vy * (maxSpeed / currentSpeed) }
  else circle

/-- `GameEngine.applyMagneticForces`: add the accumulated force to the
velocity, then clamp the speed. -/
noncomputable def applyMagneticForces (circle : Circle) (env : List Circle) : Circle :=
  let t := magneticTotal circle env
  clampSpeed { circle with vx := circle.vx + t.1, vy := circle.vy + t.2 }

/-- The `left` local of `GameEngine.handleSquareBoundaries`. -/
noncomputable def squareLeft (cfg : Config) (circle : Circle) : ℝ :=
  cfg.canvasW / 2 - cfg.fieldW / 2 + circle.size / 2

/-- The `right` local of `GameEngine.handleSquareBoundaries`. -/
noncomputable def squareRight (cfg : Config) (circle : Circle) : ℝ :=
  cfg.canvasW / 2 + cfg.fieldW / 2 - circle.size / 2

/-- The `top` local of `GameEngine.handleSquareBoundaries`. -/
noncomputable def squareTop (cfg : Config) (circle : Circle) : ℝ :=
  cfg.canvasH / 2 - cfg.fieldH / 2 + circle.size / 2

/-- The `bottom` local of `GameEngine.handleSquareBoundaries`. -/
noncomputable def squareBottom (cfg : Config) (circle : Circle) : ℝ :=
  cfg.canvasH / 2 + cfg.fieldH / 2 - circle.size / 2

/-- `GameEngine.handleSquareBoundaries`: two independent per-axis checks; a
coordinate at or beyond an inset edge has its velocity component negated and
the coordinate clamped back into the inset interval (`Math.max(left,
Math.min(right, x))`).  All four edges are computed from the circle at
entry. -/
noncomputable def handleSquareBoundaries (cfg : Config) (circle : Circle) : Circle :=
  let c1 :=
    if circle.x ≤ squareLeft cfg circle ∨ circle.x ≥ squareRight cfg circle then
      { circle with
        vx := -circle.vx,
        x := max (squareLeft cfg circle) (min (squareRight cfg circle) circle.x) }
    else circle
  if c1.y ≤ squareTop cfg circle ∨ c1.y ≥ squareBottom cfg circle then
    { c1 with
      vy := -c1.vy,
      y := max (squareTop cfg circle) (min (squareBottom cfg circle) c1.y) }
  else c1

/-- `GameEngine.handleCircleBoundaries`: radial reflection against a circle of
radius `fieldW / 2 - size / 2` around the canvas center. -/
noncomputable def handleCircleBoundaries (cfg : Config) (circle : Circle) : Circle :=
  let centerX := cfg.canvasW / 2
  let centerY := cfg.canvasH / 2
  let dx := circle.x - centerX
  let dy := circle.y - centerY
  let distance := Real.sqrt (dx * dx + dy * dy)
  let radius := cfg.fieldW / 2 - circle.size / 2
  if distance > radius then
    let normalX := dx / distance
    let normalY := dy / distance
    let dot := circle.vx * normalX + circle.vy * normalY
    { circle with
      vx := circle.vx - 2 * dot * normalX,
      vy := circle.vy - 2 * dot * normalY,
      x := centerX + normalX * radius,
      y := centerY + normalY * radius }
  else circle

/-- `GameEngine.handleArenaBoundaries`: dispatch on the arena shape; hexagon
and triangle reuse the circular reflection. -/
noncomputable def handleArenaBoundaries (cfg : Config) (circle : Circle) : Circle :=
  match cfg.shape with
  | .square => handleSquareBoundaries cfg circle
  | .circle => handleCircleBoundaries cfg circle
  | .hexagon => handleCircleBoundaries cfg circle
  | .triangle => handleCircleBoundaries cfg circle

/-- The body of the `forEach` in `GameEngine.updateCircles` for the agent at
index `i` of the (already partially updated) array: apply magnetic forces,
integrate the position, handle boundaries, and write the result back in
place. -/
noncomputable def agentStep (cfg : Config) (env : List Circle) (i : ℕ) : List Circle :=
  match env[i]? with
  | none => env
  | some c0 =>
      let c1 := applyMagneticForces c0 env
      let c2 := { c1 with x := c1.x + c1.vx, y := c1.y + c1.vy }
      env.set i (handleArenaBoundaries cfg c2)

/-- `GameEngine.updateCircles`: the `forEach` over the circle array, which
mutates each element in place before moving to the next index. -/
noncomputable def updateCircles (cfg : Config) (circles : List Circle) : List Circle :=
  (List.range circles.length).foldl (agentStep cfg) circles

/-- Modelled from the spec: the per-frame phase ordering of spec section 4.1,
in which the force field is applied to every agent from a snapshot of
pre-integration positions, then all positions are integrated, then all
boundaries are handled.  Used only to compare the specified phase ordering
with the source's `updateCircles`. -/
noncomputable def updateCirclesSpecOrder (cfg : Config) (circles : List Circle) : List Circle :=
  let afterForces := circles.map (fun c => applyMagneticForces c circles)
  let afterIntegration := afterForces.map (fun c => { c with x := c.x + c.vx, y := c.y + c.vy })
  afterIntegration.map (handleArenaBoundaries cfg)

/-- `GameEngine.isColliding`: centers closer than the sum of the radii. -/
noncomputable def isColliding (circle1 circle2 : Circle) : Prop :=
  Real.sqrt ((circle1.x - circle2.x) * (circle1.x - circle2.x) +
      (circle1.y - circle2.y) * (circle1.y - circle2.y)) <
    (circle1.size + circle2.size) / 2

noncomputable instance (circle1 circle2 : Circle) : Decidable (isColliding circle1 circle2) :=
  inferInstanceAs (Decidable (_ < _))

/-- `GameEngine.applyBounce`: reflect both velocities about the collision
normal, restore each circle's original speed, and push overlapping circles
apart; a zero center distance skips the whole bounce. -/
noncomputable def applyBounce (circle1 circle2 : Circle) : Circle × Circle :=
  if distBetween circle1 circle2 = 0 then (circle1, circle2)
  else
    let distance := distBetween circle1 circle2
    let dx := circle2.x - circle1.x
    let dy := circle2.y - circle1.y
    let normalX := dx / distance
    let normalY := dy / distance
    let speed1 := Real.sqrt (circle1.vx * circle1.vx + circle1.vy * circle1.vy)
    let speed2 := Real.sqrt (circle2.vx * circle2.vx + circle2.vy * circle2.vy)
    let dot1 := circle1.vx * normalX + circle1.vy * normalY
    let dot2 := circle2.vx * normalX + circle2.vy * normalY
    let v1x := circle1.vx - 2 * dot1 * normalX
    let v1y := circle1.vy - 2 * dot1 * normalY
    let v2x := circle2.vx - 2 * dot2 * normalX
    let v2y := circle2.vy - 2 * dot2 * normalY
    let newSpeed1 := Real.sqrt (v1x * v1x + v1y * v1y)
    let newSpeed2 := Real.sqrt (v2x * v2x + v2y * v2y)
    let w1x := if newSpeed1 > 0 then v1x / newSpeed1 * speed1 else v1x
    let w1y := if newSpeed1 > 0 then v1y / newSpeed1 * speed1 else v1y
    let w2x := if newSpeed2 > 0 then v2x / newSpeed2 * speed2 else v2x
    let w2y := if newSpeed2 > 0 then v2y / newSpeed2 * speed2 else v2y
    let overlap := (circle1.size + circle2.size) / 2 - distance
    let p1x := if overlap > 0 then circle1.x - normalX * overlap * 0.5 else circle1.x
    let p1y := if overlap > 0 then circle1.y - normalY * overlap * 0.5 else circle1.y
    let p2x := if overlap > 0 then circle2.x + normalX * overlap * 0.5 else circle2.x
    let p2y := if overlap > 0 then circle2.y + normalY * overlap * 0.5 else circle2.y
    ({ circle1 with vx := w1x, vy := w1y, x := p1x, y := p1y },
     { circle2 with vx := w2x, vy := w2y, x := p2x, y := p2y })

/-- `GameEngine.createSplitCircle`: a clone near the winner with jittered
velocity; the ambient `Math.random` draws are taken from the injected stream
`rand` at indices `3*k`, `3*k+1`, `3*k+2` and the generated id from `ids k`. -/
noncomputable def createSplitCircle (rand : ℕ → ℝ) (ids : ℕ → String) (k : ℕ)
    (originalCircle : Circle) : Circle :=
  let angle := rand (3 * k) * Real.pi * 2
  { id := ids k
    x := originalCircle.x + Real.cos angle * 10
    y := originalCircle.y + Real.sin angle * 10
    vx := originalCircle.vx + (rand (3 * k + 1) - 0.5) * 1
    vy := originalCircle.vy + (rand (3 * k + 2) - 0.5) * 1
    color := originalCircle.color
    size := CIRCLE_SIZE }

/-- State threaded through the pairwise scan of `GameEngine.checkCollisions`:
the (in-place mutated) circle array, the `toRemove` id set, the `toAdd` list,
and how many splits have consumed random draws so far. -/
structure ScanState where
  circles : List Circle
  rem : List String
  toAdd : List Circle
  k : ℕ

/-- One iteration of the inner loop of `GameEngine.checkCollisions` for the
index pair `p`: skip pairs with an already-marked member, bounce and battle
colliding different-color pairs (marking the loser and queueing a split of the
winner), and let same-color pairs pass through.  Collision and split particles
are purely visual and elided. -/
noncomputable def pairStep (rand : ℕ → ℝ) (ids : ℕ → String) (s : ScanState)
    (p : ℕ × ℕ) : ScanState :=
  let circle1 := s.circles.getD p.1 default
  let circle2 := s.circles.getD p.2 default
  if circle1.id ∈ s.rem ∨ circle2.id ∈ s.rem then s
  else if isColliding circle1 circle2 then
    if circle1.color ≠ circle2.color then
      let b := applyBounce circle1 circle2
      let circles1 := (s.circles.set p.1 b.1).set p.2 b.2
      match resolveBattle b.1 b.2 with
      | (some winner, some loser) =>
          { circles := circles1
            rem := s.rem ++ [loser.id]
            toAdd := s.toAdd ++ [createSplitCircle rand ids s.k winner]
            k := s.k + 1 }
      | _ => { s with circles := circles1 }
    else s
  else s

/-- The index pairs `(i, j)` with `i < j < n` visited by the double loop of
`GameEngine.checkCollisions`, in visit order. -/
def scanPairs (n : ℕ) : List (ℕ × ℕ) :=
  (List.range n).flatMap fun i =>
    ((List.range n).filter (fun j => i < j)).map (fun j => (i, j))

/-- `GameEngine.checkCollisions`: run the pairwise scan, then remove all
marked losers and append all queued splits. -/
noncomputable def checkCollisions (rand : ℕ → ℝ) (ids : ℕ → String)
    (circles : List Circle) : List Circle :=
  let s := (scanPairs circles.length).foldl (pairStep rand ids)
    { circles := circles, rem := [], toAdd := [], k := 0 }
  (s.circles.filter fun c => c.id ∉ s.rem) ++ s.toAdd

/-- `GameEngine.getColorCounts`, read off for one color: the number of live
circles of that color. -/
def colorCount (circles : List Circle) (color : GameColor) : ℕ :=
  circles.countP (fun c => c.color = color)

/-- The `activeColors` list of `GameEngine.checkWinCondition`: the colors with
a non-zero count, in the fixed record order blue, red, green. -/
def activeColors (circles : List Circle) : List GameColor :=
  [GameColor.blue, GameColor.red, GameColor.green].filter
    (fun color => 0 < colorCount circles color)

/-- `GameEngine.checkWinCondition`: report a winner exactly when a single
color is active. -/
def checkWinCondition (circles : List Circle) : Option GameColor :=
  match activeColors circles with
  | [winner] => some winner
  | _ => none

/-- The engine state read and written by `GameEngine.gameLoop`: the circle
array and the `isRunning` flag. -/
structure Engine where
  circles : List Circle
  isRunning : Bool

/-- One call of `GameEngine.gameLoop`: bail out when not running, otherwise
update circles, resolve collisions, check the win condition (which stops the
engine and reports the winner when it fires), and reschedule.  The returned
option is the argument of the `onGameEnd` callback, `none` when it is not
invoked.  Particle update and rendering touch no agent state and are
elided. -/
noncomputable def gameLoopStep (cfg : Config) (rand : ℕ → ℝ) (ids : ℕ → String)
    (e : Engine) : Engine × Option GameColor :=
  if e.isRunning then
    let moved := updateCircles cfg e.circles
    let resolved := checkCollisions rand ids moved
    match checkWinCondition resolved with
    | some winner => ({ circles := resolved, isRunning := false }, some winner)
    | none => ({ circles := resolved, isRunning := true }, none)
  else (e, none)

/-- Claim C2: the color dominance relation is a pure 3-cycle — for distinct
colors exactly one direction of `beats` holds and no color beats itself; the
winner of a different-color battle is the circle whose color beats the other's;
and the force-field relationship is attraction exactly when the agent's color
beats the other's and repulsion exactly when the other's color beats the
agent's. -/
theorem color_dominance_cycle (circle1 circle2 : Circle)
    (h : circle1.color ≠ circle2.color) :
    (beats circle1.color circle2.color ↔ ¬ beats circle2.color circle1.color)
    ∧ (∀ a : GameColor, beats a a = false)
    ∧ (beats circle1.color circle2.color →
        resolveBattle circle1 circle2 = (some circle1, some circle2))
    ∧ (beats circle2.color circle1.color →
        resolveBattle circle1 circle2 = (some circle2, some circle1))
    ∧ (∀ a b : GameColor,
        (getColorRelationship a b = .attraction ↔ beats a b)
        ∧ (getColorRelationship a b = .repulsion ↔ beats b a)) := by
  have h1 : ∀ a b : GameColor, a ≠ b → (beats a b = true ↔ ¬ beats b a = true) := by
    decide
  have h2 : ∀ a : GameColor, beats a a = false := by decide
  have h5 : ∀ a b : GameColor,
      (getColorRelationship a b = .attraction ↔ beats a b = true)
      ∧ (getColorRelationship a b = .repulsion ↔ beats b a = true) := by decide
  refine ⟨h1 _ _ h, h2, ?_, ?_, h5⟩
  · intro hb
    simp [resolveBattle, hb]
  · intro hb
    have hb2 : beats circle1.color circle2.color = false := by
      by_contra hcon
      have ht : beats circle1.color circle2.color = true := by
        revert hcon
        cases beats circle1.color circle2.color <;> simp
      exact ((h1 _ _ h).mp ht) hb
    simp [resolveBattle, hb, hb2]

lemma forall_color {P : GameColor → Prop} : (∀ c, P c) ↔ P .blue ∧ P .red ∧ P .green :=
  ⟨fun h => ⟨h _, h _, h _⟩, fun ⟨hb, hr, hg⟩ c => by cases c <;> assumption⟩

/-- Claim C3: after the win check of a frame the end-of-game callback fires
with color `w` iff exactly `w` has a non-zero live count at that point; zero
active colors report no winner; a stopped engine never advances or reports;
and once the callback fires the engine is stopped, so later frames are no-ops
and the callback fires at most once per run. -/
theorem win_check_reports_unique_color (cfg : Config) (rand : ℕ → ℝ)
    (ids : ℕ → String) (e : Engine) :
    (∀ cs w, checkWinCondition cs = some w ↔
        (0 < colorCount cs w ∧ ∀ c, c ≠ w → colorCount cs c = 0))
    ∧ (∀ cs, activeColors cs = [] → checkWinCondition cs = none)
    ∧ (e.isRunning = false → gameLoopStep cfg rand ids e = (e, none))
    ∧ (∀ w, e.isRunning = true →
        ((gameLoopStep cfg rand ids e).2 = some w ↔
          checkWinCondition (checkCollisions rand ids (updateCircles cfg e.circles)) = some w))
    ∧ (∀ w, (gameLoopStep cfg rand ids e).2 = some w →
        (gameLoopStep cfg rand ids e).1.isRunning = false
        ∧ gameLoopStep cfg rand ids (gameLoopStep cfg rand ids e).1
            = ((gameLoopStep cfg rand ids e).1, none)) := by
  have hchar : ∀ cs w, checkWinCondition cs = some w ↔
      (0 < colorCount cs w ∧ ∀ c, c ≠ w → colorCount cs c = 0) := by
    intro cs w
    have hcases : ∀ c : GameColor, c = .blue ∨ c = .red ∨ c = .green := by decide
    by_cases hb : 0 < colorCount cs .blue <;>
      by_cases hr : 0 < colorCount cs .red <;>
      by_cases hg : 0 < colorCount cs .green <;>
      rcases hcases w with hw | hw | hw <;> subst hw <;>
      simp [checkWinCondition, activeColors, List.filter, hb, hr, hg, forall_color] <;>
      omega
  refine ⟨hchar, ?_, ?_, ?_, ?_⟩
  · intro cs hempty
    simp [checkWinCondition, hempty]
  · intro hstop
    simp [gameLoopStep, hstop]
  · intro w hrun
    cases hwc : checkWinCondition (checkCollisions rand ids (updateCircles cfg e.circles)) <;>
      simp [gameLoopStep, hrun, hwc]
  · intro w hfire
    cases hrun : e.isRunning
    · rw [show gameLoopStep cfg rand ids e = (e, none) by simp [gameLoopStep, hrun]] at hfire
      simp at hfire
    · cases hwc : checkWinCondition (checkCollisions rand ids (updateCircles cfg e.circles))
      · rw [show gameLoopStep cfg rand ids e
            = ({ circles := checkCollisions rand ids (updateCircles cfg e.circles),
                 isRunning := true }, none) by simp [gameLoopStep, hrun, hwc]] at hfire
        simp at hfire
      · rename_i w0
        have hstep : gameLoopStep cfg rand ids e
            = ({ circles := checkCollisions rand ids (updateCircles cfg e.circles),
                 isRunning := false }, some w0) := by simp [gameLoopStep, hrun, hwc]
        rw [hstep]
        exact ⟨rfl, by simp [gameLoopStep]⟩

/-- Witness for C3: an empty population reports no winner. -/
theorem win_check_reports_unique_color_witness :
    checkWinCondition ([] : List Circle) = none :=
  (win_check_reports_unique_color
      { canvasW := 500, canvasH := 500, fieldW := 500, fieldH := 500, shape := .square }
      (fun _ => 0) (fun _ => "") { circles := [], isRunning := false }).2.1 [] rfl

/-- Witness for C2 at the concrete pair blue / red. -/
theorem color_dominance_cycle_witness :
    let b : Circle := { id := "b", x := 0, y := 0, vx := 0, vy := 0, color := .blue, size := 25 }
    let r : Circle := { id := "r", x := 0, y := 0, vx := 0, vy := 0, color := .red, size := 25 }
    resolveBattle b r = (some b, some r) :=
  (color_dominance_cycle _ _ (by decide)).2.2.1 (by decide)

/-- Claim C6: a same-colored circle contributes no magnetic force, its
presence in the neighbor list leaves the accumulated force unchanged, and a
same-colored pair in the collision scan causes no state change at all,
regardless of distance (including exact overlap). -/
theorem same_color_no_interaction (c o : Circle) (h : c.color = o.color) :
    magneticContribution c o = (0, 0)
    ∧ (∀ l1 l2 : List Circle, magneticTotal c (l1 ++ o :: l2) = magneticTotal c (l1 ++ l2))
    ∧ (∀ (rand : ℕ → ℝ) (ids : ℕ → String) (s : ScanState) (i j : ℕ),
        (s.circles.getD i default).color = (s.circles.getD j default).color →
        pairStep rand ids s (i, j) = s) := by
  have hzero : magneticContribution c o = (0, 0) := by
    unfold magneticContribution
    rw [if_pos (Or.inr h)]
  refine ⟨hzero, ?_, ?_⟩
  · intro l1 l2
    unfold magneticTotal
    rw [List.foldl_append, List.foldl_append, List.foldl_cons, hzero]
    simp
  · intro rand ids s i j hcol
    simp only [pairStep]
    split_ifs with h1 h2 h3
    · rfl
    · exact absurd hcol h3
    · rfl
    · rfl

/-- Witness for C6 at two overlapping blue circles. -/
theorem same_color_no_interaction_witness :
    magneticContribution
        { id := "a", x := 0, y := 0, vx := 0, vy := 0, color := .blue, size := 25 }
        { id := "b", x := 0, y := 0, vx := 0, vy := 0, color := .blue, size := 25 }
      = (0, 0) :=
  (same_color_no_interaction
      { id := "a", x := 0, y := 0, vx := 0, vy := 0, color := .blue, size := 25 }
      { id := "b", x := 0, y := 0, vx := 0, vy := 0, color := .blue, size := 25 }
      rfl).1

/-- Claim C10: when two centers coincide exactly, both the magnetic-force
contribution and the bounce are skipped by the zero-distance guards, leaving
force and state untouched; in this real-number embedding the division by the
zero direction-vector length (the source of `NaN` in the JavaScript source)
is therefore never evaluated. -/
theorem zero_distance_guards (c o : Circle) (hx : c.x = o.x) (hy : c.y = o.y) :
    magneticContribution c o = (0, 0) ∧ applyBounce c o = (c, o) := by
  have hd : distBetween c o = 0 := by
    simp [distBetween, hx, hy]
  constructor
  · by_cases h1 : c.id = o.id ∨ c.color = o.color
    · simp [magneticContribution, h1]
    · simp [magneticContribution, h1, hd]
  · simp [applyBounce, hd]

/-- Witness for C10 at two coincident opposite-colored circles. -/
theorem zero_distance_guards_witness :
    applyBounce
        { id := "a", x := 3, y := 4, vx := 1, vy := 0, color := .blue, size := 25 }
        { id := "b", x := 3, y := 4, vx := 0, vy := 2, color := .red, size := 25 }
      = ({ id := "a", x := 3, y := 4, vx := 1, vy := 0, color := .blue, size := 25 },
         { id := "b", x := 3, y := 4, vx := 0, vy := 2, color := .red, size := 25 }) :=
  (zero_distance_guards
      { id := "a", x := 3, y := 4, vx := 1, vy := 0, color := .blue, size := 25 }
      { id := "b", x := 3, y := 4, vx := 0, vy := 2, color := .red, size := 25 }
      rfl rfl).2

lemma clamp_mem (lo hi x : ℝ) (h : lo ≤ hi) :
    lo ≤ max lo (min hi x) ∧ max lo (min hi x) ≤ hi :=
  ⟨le_max_left _ _, max_le h (min_le_left _ _)⟩

/-- Claim C7: for a square arena, after boundary handling the center lies in
the inset interval on both axes, and a coordinate detected at or beyond an
edge has its velocity component negated and is clamped back to the edge. -/
theorem square_boundary_containment (cfg : Config) (c : Circle)
    (hW : c.size ≤ cfg.fieldW) (hH : c.size ≤ cfg.fieldH) :
    (squareLeft cfg c ≤ (handleSquareBoundaries cfg c).x
      ∧ (handleSquareBoundaries cfg c).x ≤ squareRight cfg c
      ∧ squareTop cfg c ≤ (handleSquareBoundaries cfg c).y
      ∧ (handleSquareBoundaries cfg c).y ≤ squareBottom cfg c)
    ∧ (c.x ≤ squareLeft cfg c ∨ c.x ≥ squareRight cfg c →
        (handleSquareBoundaries cfg c).vx = -c.vx
        ∧ (handleSquareBoundaries cfg c).x
            = max (squareLeft cfg c) (min (squareRight cfg c) c.x))
    ∧ (c.y ≤ squareTop cfg c ∨ c.y ≥ squareBottom cfg c →
        (handleSquareBoundaries cfg c).vy = -c.vy
        ∧ (handleSquareBoundaries cfg c).y
            = max (squareTop cfg c) (min (squareBottom cfg c) c.y)) := by
  have hlr : squareLeft cfg c ≤ squareRight cfg c := by
    unfold squareLeft squareRight
    linarith
  have htb : squareTop cfg c ≤ squareBottom cfg c := by
    unfold squareTop squareBottom
    linarith
  by_cases h1 : c.x ≤ squareLeft cfg c ∨ c.x ≥ squareRight cfg c
  · by_cases h2 : c.y ≤ squareTop cfg c ∨ c.y ≥ squareBottom cfg c
    · have hres : handleSquareBoundaries cfg c
          = { id := c.id,
              x := max (squareLeft cfg c) (min (squareRight cfg c) c.x),
              y := max (squareTop cfg c) (min (squareBottom cfg c) c.y),
              vx := -c.vx, vy := -c.vy, color := c.color, size := c.size } := by
        unfold handleSquareBoundaries
        rw [if_pos h1]
        dsimp only
        rw [if_pos h2]
      rw [hres]
      exact ⟨⟨(clamp_mem _ _ _ hlr).1, (clamp_mem _ _ _ hlr).2,
          (clamp_mem _ _ _ htb).1, (clamp_mem _ _ _ htb).2⟩,
        fun _ => ⟨rfl, rfl⟩, fun _ => ⟨rfl, rfl⟩⟩
    · have hres : handleSquareBoundaries cfg c
          = { id := c.id,
              x := max (squareLeft cfg c) (min (squareRight cfg c) c.x),
              y := c.y, vx := -c.vx, vy := c.vy, color := c.color, size := c.size } := by
        unfold handleSquareBoundaries
        rw [if_pos h1]
        dsimp only
        rw [if_neg h2]
      rw [hres]
      push_neg at h2
      exact ⟨⟨(clamp_mem _ _ _ hlr).1, (clamp_mem _ _ _ hlr).2,
          le_of_lt h2.1, le_of_lt h2.2⟩,
        fun _ => ⟨rfl, rfl⟩,
        fun hy => absurd hy (by push_neg; exact h2)⟩
  · by_cases h2 : c.y ≤ squareTop cfg c ∨ c.y ≥ squareBottom cfg c
    · have hres : handleSquareBoundaries cfg c
          = { id := c.id, x := c.x,
              y := max (squareTop cfg c) (min (squareBottom cfg c) c.y),
              vx := c.vx, vy := -c.vy, color := c.color, size := c.size } := by
        unfold handleSquareBoundaries
        rw [if_neg h1]
        dsimp only
        rw [if_pos h2]
      rw [hres]
      push_neg at h1
      exact ⟨⟨le_of_lt h1.1, le_of_lt h1.2,
          (clamp_mem _ _ _ htb).1, (clamp_mem _ _ _ htb).2⟩,
        fun hx => absurd hx (by push_neg; exact h1),
        fun _ => ⟨rfl, rfl⟩⟩
    · have hres : handleSquareBoundaries cfg c = c := by
        unfold handleSquareBoundaries
        rw [if_neg h1]
        dsimp only
        rw [if_neg h2]
      rw [hres]
      push_neg at h1
      push_neg at h2
      exact ⟨⟨le_of_lt h1.1, le_of_lt h1.2, le_of_lt h2.1, le_of_lt h2.2⟩,
        fun hx => absurd hx (by push_neg; exact h1),
        fun hy => absurd hy (by push_neg; exact h2)⟩

lemma normal_unit (dx dy : ℝ) (h : Real.sqrt (dx * dx + dy * dy) ≠ 0) :
    (dx / Real.sqrt (dx * dx + dy * dy)) * (dx / Real.sqrt (dx * dx + dy * dy))
      + (dy / Real.sqrt (dx * dx + dy * dy)) * (dy / Real.sqrt (dx * dx + dy * dy)) = 1 := by
  have hm : Real.sqrt (dx * dx + dy * dy) * Real.sqrt (dx * dx + dy * dy)
      = dx * dx + dy * dy :=
    Real.mul_self_sqrt (add_nonneg (mul_self_nonneg dx) (mul_self_nonneg dy))
  field_simp
  linear_combination (-1 : ℝ) * hm

lemma reflect_normSq (vx vy nx ny : ℝ) (hn : nx * nx + ny * ny = 1) :
    (vx - 2 * (vx * nx + vy * ny) * nx) * (vx - 2 * (vx * nx + vy * ny) * nx)
      + (vy - 2 * (vx * nx + vy * ny) * ny) * (vy - 2 * (vx * nx + vy * ny) * ny)
      = vx * vx + vy * vy := by
  linear_combination (4 * (vx * nx + vy * ny) ^ 2) * hn

lemma rescale_norm (rx ry s : ℝ) (hs : 0 ≤ s)
    (hpos : Real.sqrt (rx * rx + ry * ry) > 0) :
    Real.sqrt ((rx / Real.sqrt (rx * rx + ry * ry) * s) * (rx / Real.sqrt (rx * rx + ry * ry) * s)
      + (ry / Real.sqrt (rx * rx + ry * ry) * s) * (ry / Real.sqrt (rx * rx + ry * ry) * s)) = s := by
  have hns : Real.sqrt (rx * rx + ry * ry) ≠ 0 := ne_of_gt hpos
  rw [show (rx / Real.sqrt (rx * rx + ry * ry) * s) * (rx / Real.sqrt (rx * rx + ry * ry) * s)
      + (ry / Real.sqrt (rx * rx + ry * ry) * s) * (ry / Real.sqrt (rx * rx + ry * ry) * s)
      = (s / Real.sqrt (rx * rx + ry * ry)) ^ 2 * (rx * rx + ry * ry) by ring]
  rw [Real.sqrt_mul (sq_nonneg _), Real.sqrt_sq_eq_abs,
    abs_of_nonneg (div_nonneg hs (le_of_lt hpos)), div_mul_cancel₀ _ hns]

/-- Claim C8: for a collision with non-coincident centers, `applyBounce`
leaves each circle's speed (velocity magnitude) exactly what it was before
the call. -/
theorem bounce_preserves_speed (c1 c2 : Circle) (h : c1.x ≠ c2.x ∨ c1.y ≠ c2.y) :
    norm2 (applyBounce c1 c2).1.vx (applyBounce c1 c2).1.vy = norm2 c1.vx c1.vy
    ∧ norm2 (applyBounce c1 c2).2.vx (applyBounce c1 c2).2.vy = norm2 c2.vx c2.vy := by
  have hpos : 0 < (c2.x - c1.x) * (c2.x - c1.x) + (c2.y - c1.y) * (c2.y - c1.y) := by
    rcases h with h | h
    · have hx : 0 < (c2.x - c1.x) * (c2.x - c1.x) :=
        mul_self_pos.mpr (sub_ne_zero.mpr (Ne.symm h))
      nlinarith [mul_self_nonneg (c2.y - c1.y)]
    · have hy : 0 < (c2.y - c1.y) * (c2.y - c1.y) :=
        mul_self_pos.mpr (sub_ne_zero.mpr (Ne.symm h))
      nlinarith [mul_self_nonneg (c2.x - c1.x)]
  have hd : distBetween c1 c2 ≠ 0 := by
    unfold distBetween
    exact ne_of_gt (Real.sqrt_pos.mpr hpos)
  have hn : ((c2.x - c1.x) / distBetween c1 c2) * ((c2.x - c1.x) / distBetween c1 c2)
      + ((c2.y - c1.y) / distBetween c1 c2) * ((c2.y - c1.y) / distBetween c1 c2) = 1 := by
    unfold distBetween at hd ⊢
    exact normal_unit _ _ hd
  unfold applyBounce norm2
  rw [if_neg hd]
  dsimp only
  constructor
  · split_ifs with hcase
    · exact rescale_norm _ _ _ (Real.sqrt_nonneg _) hcase
    · exact congrArg Real.sqrt (reflect_normSq _ _ _ _ hn)
  · split_ifs with hcase
    · exact rescale_norm _ _ _ (Real.sqrt_nonneg _) hcase
    · exact congrArg Real.sqrt (reflect_normSq _ _ _ _ hn)

/-- Witness for C8 at two circles 10 apart on the x-axis. -/
theorem bounce_preserves_speed_witness :
    let c1 : Circle := { id := "a", x := 0, y := 0, vx := 1, vy := 2, color := .blue, size := 25 }
    let c2 : Circle := { id := "b", x := 10, y := 0, vx := 3, vy := 4, color := .red, size := 25 }
    norm2 (applyBounce c1 c2).1.vx (applyBounce c1 c2).1.vy = norm2 c1.vx c1.vy
    ∧ norm2 (applyBounce c1 c2).2.vx (applyBounce c1 c2).2.vy = norm2 c2.vx c2.vy :=
  bounce_preserves_speed _ _ (Or.inl (by norm_num))

lemma norm2_mul_right (a b t : ℝ) : norm2 (a * t) (b * t) = |t| * norm2 a b := by
  unfold norm2
  rw [show a * t * (a * t) + b * t * (b * t) = t ^ 2 * (a * a + b * b) by ring,
    Real.sqrt_mul (sq_nonneg t), Real.sqrt_sq_eq_abs]

lemma norm2_neg (a b : ℝ) : norm2 (-a) (-b) = norm2 a b := by
  unfold norm2
  rw [show -a * -a + -b * -b = a * a + b * b by ring]

/-- Claim C9: an in-range other-colored neighbor contributes a force equal to
the (attraction or repulsion) constant times the linear falloff
`1 - distance/MAGNETIC_RANGE`, directed along the normalized vector toward
(prey) or away from (predator) the neighbor, with both relationships sharing
the same falloff factor; and the velocity, after the accumulated force is
added, is clamped to at most `SPEED * 1.8` while preserving its direction. -/
theorem magnetic_force_linear_falloff (c o : Circle)
    (hid : c.id ≠ o.id)
    (hd0 : distBetween c o ≠ 0)
    (hdR : distBetween c o ≤ MAGNETIC_RANGE) :
    (getColorRelationship c.color o.color = .attraction →
      magneticContribution c o
        = ((o.x - c.x) / distBetween c o
            * (ATTRACTION_FORCE * (1 - distBetween c o / MAGNETIC_RANGE)),
           (o.y - c.y) / distBetween c o
            * (ATTRACTION_FORCE * (1 - distBetween c o / MAGNETIC_RANGE)))
      ∧ norm2 (magneticContribution c o).1 (magneticContribution c o).2
          = ATTRACTION_FORCE * (1 - distBetween c o / MAGNETIC_RANGE))
    ∧ (getColorRelationship c.color o.color = .repulsion →
      magneticContribution c o
        = (-((o.x - c.x) / distBetween c o
              * (REPULSION_FORCE * (1 - distBetween c o / MAGNETIC_RANGE))),
           -((o.y - c.y) / distBetween c o
              * (REPULSION_FORCE * (1 - distBetween c o / MAGNETIC_RANGE))))
      ∧ norm2 (magneticContribution c o).1 (magneticContribution c o).2
          = REPULSION_FORCE * (1 - distBetween c o / MAGNETIC_RANGE))
    ∧ (∀ a : Circle,
        norm2 (clampSpeed a).vx (clampSpeed a).vy = min (norm2 a.vx a.vy) (SPEED * 1.8)
        ∧ ∃ t : ℝ, 0 < t ∧ (clampSpeed a).vx = t * a.vx ∧ (clampSpeed a).vy = t * a.vy)
    ∧ (∀ (a : Circle) (env : List Circle),
        applyMagneticForces a env
          = clampSpeed { a with
              vx := a.vx + (magneticTotal a env).1,
              vy := a.vy + (magneticTotal a env).2 }) := by
  have hsame : ∀ a : GameColor, getColorRelationship a a = Relationship.neutral := by decide
  have hnotgt : ¬(distBetween c o > MAGNETIC_RANGE ∨ distBetween c o = 0) := by
    push_neg
    exact ⟨hdR, hd0⟩
  have hn : ((o.x - c.x) / distBetween c o) * ((o.x - c.x) / distBetween c o)
      + ((o.y - c.y) / distBetween c o) * ((o.y - c.y) / distBetween c o) = 1 := by
    unfold distBetween at hd0 ⊢
    exact normal_unit _ _ hd0
  have hfall : 0 ≤ 1 - distBetween c o / MAGNETIC_RANGE := by
    have hR : (0 : ℝ) < MAGNETIC_RANGE := by norm_num [MAGNETIC_RANGE]
    have hle : distBetween c o / MAGNETIC_RANGE ≤ 1 := by
      rw [div_le_one hR]
      exact hdR
    linarith
  refine ⟨?_, ?_, ?_, fun a env => rfl⟩
  · intro hrel
    have hcol : ¬(c.color = o.color) := by
      intro hceq
      rw [hceq, hsame] at hrel
      exact absurd hrel (by decide)
    have hval : magneticContribution c o
        = ((o.x - c.x) / distBetween c o
            * (ATTRACTION_FORCE * (1 - distBetween c o / MAGNETIC_RANGE)),
           (o.y - c.y) / distBetween c o
            * (ATTRACTION_FORCE * (1 - distBetween c o / MAGNETIC_RANGE))) := by
      unfold magneticContribution
      rw [if_neg (by rintro (hh | hh) <;> [exact hid hh; exact hcol hh]), if_neg hnotgt, hrel]
    refine ⟨hval, ?_⟩
    rw [hval]
    have hFnn : 0 ≤ ATTRACTION_FORCE * (1 - distBetween c o / MAGNETIC_RANGE) :=
      mul_nonneg (by norm_num [ATTRACTION_FORCE]) hfall
    calc norm2 ((o.x - c.x) / distBetween c o
            * (ATTRACTION_FORCE * (1 - distBetween c o / MAGNETIC_RANGE)))
          ((o.y - c.y) / distBetween c o
            * (ATTRACTION_FORCE * (1 - distBetween c o / MAGNETIC_RANGE)))
        = |ATTRACTION_FORCE * (1 - distBetween c o / MAGNETIC_RANGE)|
            * norm2 ((o.x - c.x) / distBetween c o) ((o.y - c.y) / distBetween c o) :=
          norm2_mul_right _ _ _
      _ = ATTRACTION_FORCE * (1 - distBetween c o / MAGNETIC_RANGE) := by
          rw [abs_of_nonneg hFnn]
          unfold norm2
          rw [hn, Real.sqrt_one, mul_one]
  · intro hrel
    have hcol : ¬(c.color = o.color) := by
      intro hceq
      rw [hceq, hsame] at hrel
      exact absurd hrel (by decide)
    have hval : magneticContribution c o
        = (-((o.x - c.x) / distBetween c o
              * (REPULSION_FORCE * (1 - distBetween c o / MAGNETIC_RANGE))),
           -((o.y - c.y) / distBetween c o
              * (REPULSION_FORCE * (1 - distBetween c o / MAGNETIC_RANGE)))) := by
      unfold magneticContribution
      rw [if_neg (by rintro (hh | hh) <;> [exact hid hh; exact hcol hh]), if_neg hnotgt, hrel]
    refine ⟨hval, ?_⟩
    rw [hval]
    have hFnn : 0 ≤ REPULSION_FORCE * (1 - distBetween c o / MAGNETIC_RANGE) :=
      mul_nonneg (by norm_num [REPULSION_FORCE]) hfall
    calc norm2 (-((o.x - c.x) / distBetween c o
            * (REPULSION_FORCE * (1 - distBetween c o / MAGNETIC_RANGE))))
          (-((o.y - c.y) / distBetween c o
            * (REPULSION_FORCE * (1 - distBetween c o / MAGNETIC_RANGE))))
        = norm2 ((o.x - c.x) / distBetween c o
            * (REPULSION_FORCE * (1 - distBetween c o / MAGNETIC_RANGE)))
          ((o.y - c.y) / distBetween c o
            * (REPULSION_FORCE * (1 - distBetween c o / MAGNETIC_RANGE))) := norm2_neg _ _
      _ = |REPULSION_FORCE * (1 - distBetween c o / MAGNETIC_RANGE)|
            * norm2 ((o.x - c.x) / distBetween c o) ((o.y - c.y) / distBetween c o) :=
          norm2_mul_right _ _ _
      _ = REPULSION_FORCE * (1 - distBetween c o / MAGNETIC_RANGE) := by
          rw [abs_of_nonneg hFnn]
          unfold norm2
          rw [hn, Real.sqrt_one, mul_one]
  · intro a
    have hm : (0 : ℝ) < SPEED * 1.8 := by norm_num [SPEED]
    unfold clampSpeed norm2
    dsimp only
    split_ifs with hgt
    · have hspos : 0 < Real.sqrt (a.vx * a.vx + a.vy * a.vy) := lt_trans hm hgt
      have hsne : Real.sqrt (a.vx * a.vx + a.vy * a.vy) ≠ 0 := ne_of_gt hspos
      constructor
      · have := norm2_mul_right a.vx a.vy
            (SPEED * 1.8 / Real.sqrt (a.vx * a.vx + a.vy * a.vy))
        unfold norm2 at this
        rw [this, abs_of_nonneg (div_nonneg (le_of_lt hm) (le_of_lt hspos)),
          div_mul_cancel₀ _ hsne, min_eq_right (le_of_lt hgt)]
      · exact ⟨SPEED * 1.8 / Real.sqrt (a.vx * a.vx + a.vy * a.vy),
          div_pos hm hspos, mul_comm _ _, mul_comm _ _⟩
    · exact ⟨(min_eq_left (not_lt.mp hgt)).symm,
        1, one_pos, (one_mul _).symm, (one_mul _).symm⟩

/-- Witness for C9 at a blue circle and a red circle 60 apart (attraction,
within the 75 interaction radius). -/
theorem magnetic_force_linear_falloff_witness :
    norm2 (magneticContribution
        { id := "a", x := 0, y := 0, vx := 0, vy := 0, color := .blue, size := 25 }
        { id := "b", x := 60, y := 0, vx := 0, vy := 0, color := .red, size := 25 }).1
      (magneticContribution
        { id := "a", x := 0, y := 0, vx := 0, vy := 0, color := .blue, size := 25 }
        { id := "b", x := 60, y := 0, vx := 0, vy := 0, color := .red, size := 25 }).2
      = ATTRACTION_FORCE * (1 - distBetween
        { id := "a", x := 0, y := 0, vx := 0, vy := 0, color := .blue, size := 25 }
        { id := "b", x := 60, y := 0, vx := 0, vy := 0, color := .red, size := 25 } / MAGNETIC_RANGE) := by
  have hdist : distBetween
      { id := "a", x := 0, y := 0, vx := 0, vy := 0, color := .blue, size := 25 }
      { id := "b", x := 60, y := 0, vx := 0, vy := 0, color := .red, size := 25 } = 60 := by
    unfold distBetween
    rw [show ((60 : ℝ) - 0) * ((60 : ℝ) - 0) + ((0 : ℝ) - 0) * ((0 : ℝ) - 0) = 60 ^ 2 by norm_num]
    exact Real.sqrt_sq (by norm_num)
  exact ((magnetic_force_linear_falloff _ _ (by decide)
    (by rw [hdist]; norm_num)
    (by rw [hdist]; norm_num [MAGNETIC_RANGE])).1 (by decide)).2

lemma agentStep_length (cfg : Config) (env : List Circle) (j : ℕ) :
    (agentStep cfg env j).length = env.length := by
  unfold agentStep
  cases henv : env[j]? with
  | none => rfl
  | some c0 => simp

lemma agentStep_getElem_ne (cfg : Config) (env : List Circle) (i j : ℕ) (h : j ≠ i) :
    (agentStep cfg env j)[i]? = env[i]? := by
  unfold agentStep
  cases henv : env[j]? with
  | none => rfl
  | some c0 => exact List.getElem?_set_ne h

lemma foldl_agentStep_getElem_ne (cfg : Config) (l : List ℕ) (env : List Circle) (i : ℕ)
    (h : ∀ j ∈ l, j ≠ i) : (l.foldl (agentStep cfg) env)[i]? = env[i]? := by
  induction l generalizing env with
  | nil => rfl
  | cons j l ih =>
      rw [List.foldl_cons, ih _ (fun j hj => h j (List.mem_cons_of_mem _ hj)),
        agentStep_getElem_ne cfg env i j (h j (List.mem_cons_self _ _))]

lemma range_foldl_agentStep_getElem (cfg : Config) (cs : List Circle) (i n : ℕ)
    (h : i < n) :
    ((List.range n).foldl (agentStep cfg) cs)[i]?
      = (agentStep cfg ((List.range i).foldl (agentStep cfg) cs) i)[i]? := by
  induction n with
  | zero => omega
  | succ m ih =>
      rw [List.range_succ, List.foldl_append]
      rcases Nat.lt_succ_iff_lt_or_eq.mp h with hlt | heq
      · rw [List.foldl_cons, List.foldl_nil,
          agentStep_getElem_ne cfg _ i m (by omega), ih hlt]
      · subst heq
        rw [List.foldl_cons, List.foldl_nil]

/-- Claim C5 (amended): within a frame the agents are processed one at a time
in array order; for each agent the force field is applied, then its position
is integrated, then its boundaries are handled, all against an environment in
which every earlier-listed agent has already been fully updated this frame;
collision detection then runs on the output of this per-agent pass
(post-boundary positions) before the win check. -/
theorem update_order_per_agent (cfg : Config) (rand : ℕ → ℝ) (ids : ℕ → String)
    (cs : List Circle) (i : ℕ) (h : i < cs.length) :
    (updateCircles cfg cs)[i]?
      = (agentStep cfg ((List.range i).foldl (agentStep cfg) cs) i)[i]?
    ∧ (∀ (env : List Circle) (c0 : Circle), env[i]? = some c0 →
        (agentStep cfg env i)[i]?
          = some (handleArenaBoundaries cfg
              { applyMagneticForces c0 env with
                x := (applyMagneticForces c0 env).x + (applyMagneticForces c0 env).vx,
                y := (applyMagneticForces c0 env).y + (applyMagneticForces c0 env).vy }))
    ∧ (∀ e : Engine, e.isRunning = true →
        (gameLoopStep cfg rand ids e).1.circles
          = checkCollisions rand ids (updateCircles cfg e.circles)) := by
  refine ⟨range_foldl_agentStep_getElem cfg cs i cs.length h, ?_, ?_⟩
  · intro env c0 henv
    unfold agentStep
    rw [henv]
    exact List.getElem?_set_eq_of_lt _ (by
      have := List.getElem?_eq_some_iff.mp henv
      exact this.1)
  · intro e hrun
    cases hwc : checkWinCondition (checkCollisions rand ids (updateCircles cfg e.circles)) <;>
      simp [gameLoopStep, hrun, hwc]

/-- Witness for C5 (amended) on a singleton population: the lone agent's frame
update is boundary handling after integration after force application. -/
theorem update_order_per_agent_witness :
    (updateCircles
        { canvasW := 520, canvasH := 520, fieldW := 500, fieldH := 500, shape := .square }
        [{ id := "a", x := 260, y := 260, vx := 1, vy := 0, color := .blue, size := 25 }])[0]?
      = (agentStep
          { canvasW := 520, canvasH := 520, fieldW := 500, fieldH := 500, shape := .square }
          ((List.range 0).foldl
            (agentStep
              { canvasW := 520, canvasH := 520, fieldW := 500, fieldH := 500, shape := .square })
            [{ id := "a", x := 260, y := 260, vx := 1, vy := 0, color := .blue, size := 25 }])
          0)[0]? :=
  (update_order_per_agent _ (fun _ => 0) (fun _ => "")
    [{ id := "a", x := 260, y := 260, vx := 1, vy := 0, color := .blue, size := 25 }]
    0 (by norm_num)).1

lemma sqrt_sum_sq (a b c : ℝ) (hc : 0 ≤ c) (h : a * a + b * b = c * c) :
    Real.sqrt (a * a + b * b) = c := by
  rw [h]
  exact Real.sqrt_mul_self hc

lemma sqrt_le_of_sq_le (x c : ℝ) (hc : 0 ≤ c) (h : x ≤ c * c) : Real.sqrt x ≤ c :=
  calc Real.sqrt x ≤ Real.sqrt (c * c) := Real.sqrt_le_sqrt h
    _ = c := Real.sqrt_mul_self hc

lemma clampSpeed_id (a : Circle) (h : Real.sqrt (a.vx * a.vx + a.vy * a.vy) ≤ SPEED * 1.8) :
    clampSpeed a = a := by
  unfold clampSpeed
  rw [if_neg (not_lt.mpr h)]

lemma handleSquareBoundaries_id (cfg : Config) (c : Circle)
    (hx1 : squareLeft cfg c < c.x) (hx2 : c.x < squareRight cfg c)
    (hy1 : squareTop cfg c < c.y) (hy2 : c.y < squareBottom cfg c) :
    handleSquareBoundaries cfg c = c := by
  unfold handleSquareBoundaries
  dsimp only
  rw [if_neg (by push_neg; exact ⟨hx1, hx2⟩ :
    ¬(c.x ≤ squareLeft cfg c ∨ c.x ≥ squareRight cfg c))]
  rw [if_neg (by push_neg; exact ⟨hy1, hy2⟩ :
    ¬(c.y ≤ squareTop cfg c ∨ c.y ≥ squareBottom cfg c))]

lemma handleArenaBoundaries_square (cfg : Config) (hsq : cfg.shape = .square) (c : Circle) :
    handleArenaBoundaries cfg c = handleSquareBoundaries cfg c := by
  unfold handleArenaBoundaries
  rw [hsq]

lemma list_set_getElem_self {α : Type} (l : List α) (i : ℕ) (h : i < l.length) :
    l.set i l[i] = l := by
  apply List.ext_getElem?
  intro n
  by_cases hn : n = i
  · subst hn
    rw [List.getElem?_set_eq_of_lt _ h, List.getElem?_eq_getElem h]
  · exact List.getElem?_set_ne (by omega)

lemma set_map_id_self (l : List Circle) (i : ℕ) (hi : i < l.length) :
    (l.map (·.id)).set i (l.getD i default).id = l.map (·.id) := by
  rw [List.getD_eq_getElem _ _ hi]
  have hlen : i < (l.map (·.id)).length := by simpa using hi
  have hx : (l[i]).id = (l.map (·.id))[i] := (List.getElem_map _).symm
  rw [hx]
  exact list_set_getElem_self _ _ hlen

lemma applyBounce_fields (c1 c2 : Circle) :
    (applyBounce c1 c2).1.id = c1.id ∧ (applyBounce c1 c2).1.color = c1.color
    ∧ (applyBounce c1 c2).1.size = c1.size
    ∧ (applyBounce c1 c2).2.id = c2.id ∧ (applyBounce c1 c2).2.color = c2.color
    ∧ (applyBounce c1 c2).2.size = c2.size := by
  unfold applyBounce
  by_cases hd : distBetween c1 c2 = 0
  · rw [if_pos hd]
    exact ⟨rfl, rfl, rfl, rfl, rfl, rfl⟩
  · rw [if_neg hd]
    dsimp only
    exact ⟨rfl, rfl, rfl, rfl, rfl, rfl⟩

lemma resolveBattle_cases (a b w l : Circle) (h : resolveBattle a b = (some w, some l)) :
    (w = a ∧ l = b) ∨ (w = b ∧ l = a) := by
  unfold resolveBattle at h
  split_ifs at h with h1 h2
  · simp only [Prod.mk.injEq, Option.some.injEq] at h
    exact Or.inl ⟨h.1.symm, h.2.symm⟩
  · simp only [Prod.mk.injEq, Option.some.injEq] at h
    exact Or.inr ⟨h.1.symm, h.2.symm⟩
  · simp at h

/-- The invariant carried through the pairwise scan of `checkCollisions`: the
scan never changes the multiset of circle ids in the array, marks only ids of
scanned circles, marks no id twice, and queues exactly one split per mark. -/
def ScanInv (cs : List Circle) (s : ScanState) : Prop :=
  s.circles.map (·.id) = cs.map (·.id)
  ∧ s.rem.Nodup
  ∧ (∀ r ∈ s.rem, r ∈ cs.map (·.id))
  ∧ s.toAdd.length = s.rem.length

lemma pairStep_inv (rand : ℕ → ℝ) (ids : ℕ → String) (cs : List Circle) (s : ScanState)
    (p : ℕ × ℕ) (hp1 : p.1 < cs.length) (hp2 : p.2 < cs.length)
    (hinv : ScanInv cs s) : ScanInv cs (pairStep rand ids s p) := by
  obtain ⟨hmap, hnd, hsub, hlen⟩ := hinv
  have hlencirc : s.circles.length = cs.length := by
    have h := congrArg List.length hmap
    simpa using h
  have hp1c : p.1 < s.circles.length := by omega
  have hp2c : p.2 < s.circles.length := by omega
  simp only [pairStep]
  set c1 := s.circles.getD p.1 default with hc1
  set c2 := s.circles.getD p.2 default with hc2
  have hc1mem : c1.id ∈ cs.map (·.id) := by
    rw [← hmap, hc1, List.getD_eq_getElem _ _ hp1c]
    exact List.mem_map_of_mem _ (List.getElem_mem hp1c)
  have hc2mem : c2.id ∈ cs.map (·.id) := by
    rw [← hmap, hc2, List.getD_eq_getElem _ _ hp2c]
    exact List.mem_map_of_mem _ (List.getElem_mem hp2c)
  have hbf := applyBounce_fields c1 c2
  have e1 := set_map_id_self s.circles p.1 hp1c
  rw [← hc1] at e1
  have e2 := set_map_id_self s.circles p.2 hp2c
  rw [← hc2] at e2
  have hmapset : ((s.circles.set p.1 (applyBounce c1 c2).1).set p.2
      (applyBounce c1 c2).2).map (·.id) = cs.map (·.id) := by
    rw [List.map_set, List.map_set, hbf.1, hbf.2.2.2.1, e1, e2, hmap]
  split_ifs with h1 h2 h3
  · exact ⟨hmap, hnd, hsub, hlen⟩
  · push_neg at h1
    split
    · rename_i wn ln heq
      refine ⟨hmapset, ?_, ?_, ?_⟩
      · rw [List.nodup_append]
        refine ⟨hnd, List.nodup_singleton _, ?_⟩
        intro a ha hb
        rw [List.mem_singleton] at hb
        subst hb
        rcases resolveBattle_cases _ _ _ _ heq with ⟨hw, hl⟩ | ⟨hw, hl⟩
        · rw [hl, hbf.2.2.2.1] at ha
          exact h1.2 ha
        · rw [hl, hbf.1] at ha
          exact h1.1 ha
      · intro r hr
        rw [List.mem_append] at hr
        rcases hr with hr | hr
        · exact hsub r hr
        · rw [List.mem_singleton] at hr
          subst hr
          rcases resolveBattle_cases _ _ _ _ heq with ⟨hw, hl⟩ | ⟨hw, hl⟩
          · rw [hl, hbf.2.2.2.1]
            exact hc2mem
          · rw [hl, hbf.1]
            exact hc1mem
      · simp [hlen]
    · exact ⟨hmapset, hnd, hsub, hlen⟩
  · exact ⟨hmap, hnd, hsub, hlen⟩
  · exact ⟨hmap, hnd, hsub, hlen⟩

lemma scanPairs_mem_bounds (n : ℕ) (p : ℕ × ℕ) (hp : p ∈ scanPairs n) :
    p.1 < n ∧ p.2 < n := by
  unfold scanPairs at hp
  simp only [List.mem_flatMap, List.mem_map, List.mem_filter, List.mem_range,
    decide_eq_true_eq] at hp
  obtain ⟨i, hi, j, ⟨hj, hij⟩, hpe⟩ := hp
  subst hpe
  exact ⟨hi, hj⟩

lemma foldl_pairStep_inv (rand : ℕ → ℝ) (ids : ℕ → String) (cs : List Circle)
    (l : List (ℕ × ℕ)) (s : ScanState)
    (hb : ∀ p ∈ l, p.1 < cs.length ∧ p.2 < cs.length)
    (hinv : ScanInv cs s) : ScanInv cs (l.foldl (pairStep rand ids) s) := by
  induction l generalizing s with
  | nil => exact hinv
  | cons p l ih =>
      rw [List.foldl_cons]
      exact ih _ (fun q hq => hb q (List.mem_cons_of_mem _ hq))
        (pairStep_inv rand ids cs s p (hb p (List.mem_cons_self _ _)).1
          (hb p (List.mem_cons_self _ _)).2 hinv)

lemma length_filter_ne (l : List Circle) (r : String)
    (hnd : (l.map (·.id)).Nodup) (hmem : r ∈ l.map (·.id)) :
    (l.filter (fun c => c.id ≠ r)).length + 1 = l.length := by
  have key := List.length_eq_length_filter_add (l := l) (fun c => decide (c.id = r))
  have h1 : (l.filter (fun c => decide (c.id = r))).length = 1 := by
    rw [← List.countP_eq_length_filter]
    have hc : (l.map (·.id)).count r = 1 := List.count_eq_one_of_mem hnd hmem
    rw [List.count_eq_countP] at hc
    rw [List.countP_map] at hc
    rw [← hc]
    apply List.countP_congr
    intro c _
    by_cases h : c.id = r <;> simp [h]
  have h2 : (l.filter (fun c => c.id ≠ r)).length
      = (l.filter (fun a => !(decide (a.id = r)))).length := by
    apply congrArg List.length
    apply List.filter_congr
    intro c _
    by_cases h : c.id = r <;> simp [h]
  rw [h2, key, h1]
  omega

lemma length_filter_not_mem : ∀ (rem : List String) (l : List Circle),
    (l.map (·.id)).Nodup → rem.Nodup → (∀ r ∈ rem, r ∈ l.map (·.id)) →
    (l.filter (fun c => c.id ∉ rem)).length + rem.length = l.length := by
  intro rem
  induction rem with
  | nil =>
      intro l _ _ _
      simp
  | cons r rs ih =>
      intro l hnd hrnd hsub
      have hrmem : r ∈ l.map (·.id) := hsub r (List.mem_cons_self _ _)
      have hrs : r ∉ rs := (List.nodup_cons.mp hrnd).1
      have hrsnd : rs.Nodup := (List.nodup_cons.mp hrnd).2
      have hnd' : ((l.filter (fun c => c.id ≠ r)).map (·.id)).Nodup :=
        hnd.sublist ((List.filter_sublist l).map _)
      have hsub' : ∀ q ∈ rs, q ∈ (l.filter (fun c => c.id ≠ r)).map (·.id) := by
        intro q hq
        have hqmem : q ∈ l.map (·.id) := hsub q (List.mem_cons_of_mem _ hq)
        rw [List.mem_map] at hqmem ⊢
        obtain ⟨c, hc, hcq⟩ := hqmem
        refine ⟨c, ?_, hcq⟩
        rw [List.mem_filter]
        refine ⟨hc, ?_⟩
        simp only [decide_eq_true_eq]
        rw [hcq]
        intro hqr
        exact hrs (hqr ▸ hq)
      have hstep : (l.filter (fun c => c.id ∉ r :: rs)).length
          = ((l.filter (fun c => c.id ≠ r)).filter (fun c => c.id ∉ rs)).length := by
        rw [List.filter_filter]
        apply congrArg List.length
        apply List.filter_congr
        intro c _
        by_cases hc1 : c.id = r <;> by_cases hc2 : c.id ∈ rs <;>
          simp [hc1, hc2, List.mem_cons]
      have hih := ih (l.filter (fun c => c.id ≠ r)) hnd' hrsnd hsub'
      have hne := length_filter_ne l r hnd hrmem
      calc (l.filter (fun c => c.id ∉ r :: rs)).length + (r :: rs).length
          = ((l.filter (fun c => c.id ≠ r)).filter (fun c => c.id ∉ rs)).length
              + rs.length + 1 := by
            rw [hstep, List.length_cons]
            omega
        _ = (l.filter (fun c => c.id ≠ r)).length + 1 := by rw [hih]
        _ = l.length := hne

/-- Claim C1: the collision-resolution step never changes the total number of
live agents: every decided battle marks exactly one fresh loser id for removal
and queues exactly one split circle, and removals and additions are applied
together after the full pairwise scan, so the list that leaves
`checkCollisions` has exactly the length of the list that entered it.
(Requires the engine invariant that live circle ids are distinct, which holds
for ids generated by the source's id schemes.) -/
theorem checkCollisions_preserves_count (rand : ℕ → ℝ) (ids : ℕ → String)
    (cs : List Circle) (hnd : (cs.map (·.id)).Nodup) :
    (checkCollisions rand ids cs).length = cs.length := by
  unfold checkCollisions
  dsimp only
  have hinv : ScanInv cs ((scanPairs cs.length).foldl (pairStep rand ids)
      { circles := cs, rem := [], toAdd := [], k := 0 }) :=
    foldl_pairStep_inv rand ids cs _ _ (fun p hp => scanPairs_mem_bounds _ p hp)
      ⟨rfl, List.nodup_nil, by simp, rfl⟩
  set s := (scanPairs cs.length).foldl (pairStep rand ids)
    { circles := cs, rem := [], toAdd := [], k := 0 } with hs
  obtain ⟨hmap, hrnd, hsub, hlen⟩ := hinv
  rw [List.length_append, hlen]
  have hndc : (s.circles.map (·.id)).Nodup := by
    rw [hmap]
    exact hnd
  have hsubc : ∀ r ∈ s.rem, r ∈ s.circles.map (·.id) := by
    rw [hmap]
    exact hsub
  have hcount := length_filter_not_mem s.rem s.circles hndc hrnd hsubc
  have hlc : s.circles.length = cs.length := by
    have h := congrArg List.length hmap
    simpa using h
  omega

/-- Witness for C1: a frame on two circles with distinct ids that collide and
battle still contains exactly two circles afterwards. -/
theorem checkCollisions_preserves_count_witness :
    (checkCollisions (fun _ => 0) (fun _ => "s")
        [{ id := "b", x := 0, y := 0, vx := 1, vy := 0, color := .blue, size := 25 },
         { id := "r", x := 10, y := 0, vx := 0, vy := 0, color := .red, size := 25 }]).length
      = 2 :=
  (checkCollisions_preserves_count (fun _ => 0) (fun _ => "s")
      [{ id := "b", x := 0, y := 0, vx := 1, vy := 0, color := .blue, size := 25 },
       { id := "r", x := 10, y := 0, vx := 0, vy := 0, color := .red, size := 25 }]
      (by simp)).trans rfl

/-- Claim C4 (amended): every resolved battle marks exactly one loser id for
removal and queues exactly one new circle carrying the winner's color (and the
standard diameter); the winner is retained — same id, color and size, and its
id is never marked — but the bounce applied to both collision participants
before battle resolution may have altered its velocity and position. -/
theorem battle_effect_amended (rand : ℕ → ℝ) (ids : ℕ → String) (s : ScanState) (i j : ℕ)
    (h1 : ¬((s.circles.getD i default).id ∈ s.rem ∨ (s.circles.getD j default).id ∈ s.rem))
    (h2 : isColliding (s.circles.getD i default) (s.circles.getD j default))
    (h3 : (s.circles.getD i default).color ≠ (s.circles.getD j default).color)
    (h4 : (s.circles.getD i default).id ≠ (s.circles.getD j default).id) :
    ∃ wn ln : Circle,
      resolveBattle (applyBounce (s.circles.getD i default) (s.circles.getD j default)).1
          (applyBounce (s.circles.getD i default) (s.circles.getD j default)).2
        = (some wn, some ln)
      ∧ pairStep rand ids s (i, j)
          = { circles := (s.circles.set i (applyBounce (s.circles.getD i default)
                  (s.circles.getD j default)).1).set j
                (applyBounce (s.circles.getD i default) (s.circles.getD j default)).2,
              rem := s.rem ++ [ln.id],
              toAdd := s.toAdd ++ [createSplitCircle rand ids s.k wn],
              k := s.k + 1 }
      ∧ (createSplitCircle rand ids s.k wn).color = wn.color
      ∧ (createSplitCircle rand ids s.k wn).size = CIRCLE_SIZE
      ∧ ((wn.id = (s.circles.getD i default).id
            ∧ wn.color = (s.circles.getD i default).color
            ∧ wn.size = (s.circles.getD i default).size
            ∧ ln.id = (s.circles.getD j default).id)
        ∨ (wn.id = (s.circles.getD j default).id
            ∧ wn.color = (s.circles.getD j default).color
            ∧ wn.size = (s.circles.getD j default).size
            ∧ ln.id = (s.circles.getD i default).id))
      ∧ wn.id ∉ s.rem ++ [ln.id] := by
  set c1 := s.circles.getD i default with hc1
  set c2 := s.circles.getD j default with hc2
  have hbf := applyBounce_fields c1 c2
  push_neg at h1
  have hbeats : beats c1.color c2.color = true ∨ beats c2.color c1.color = true := by
    have hkey : ∀ a b : GameColor, a ≠ b → (beats a b = true ∨ beats b a = true) := by decide
    exact hkey _ _ h3
  have hstep : ∀ wn ln : Circle,
      resolveBattle (applyBounce c1 c2).1 (applyBounce c1 c2).2 = (some wn, some ln) →
      pairStep rand ids s (i, j)
        = { circles := (s.circles.set i (applyBounce c1 c2).1).set j (applyBounce c1 c2).2,
            rem := s.rem ++ [ln.id],
            toAdd := s.toAdd ++ [createSplitCircle rand ids s.k wn],
            k := s.k + 1 } := by
    intro wn ln hres
    simp only [pairStep]
    rw [if_neg (by push_neg; exact h1), if_pos h2, if_pos h3, hres]
  rcases hbeats with hw | hw
  · have hres : resolveBattle (applyBounce c1 c2).1 (applyBounce c1 c2).2
        = (some (applyBounce c1 c2).1, some (applyBounce c1 c2).2) := by
      unfold resolveBattle
      rw [hbf.2.1, hbf.2.2.2.2.1, if_pos hw]
    refine ⟨(applyBounce c1 c2).1, (applyBounce c1 c2).2, hres, hstep _ _ hres, rfl, rfl,
      Or.inl ⟨hbf.1, hbf.2.1, hbf.2.2.1, hbf.2.2.2.1⟩, ?_⟩
    rw [List.mem_append, List.mem_singleton, hbf.1, hbf.2.2.2.1]
    rintro (hmem | hmem)
    · exact h1.1 hmem
    · exact h4 hmem
  · have hfalse : beats c1.color c2.color = false := by
      have hkey : ∀ a b : GameColor, a ≠ b → beats b a = true → beats a b = false := by decide
      exact hkey _ _ h3 hw
    have hres : resolveBattle (applyBounce c1 c2).1 (applyBounce c1 c2).2
        = (some (applyBounce c1 c2).2, some (applyBounce c1 c2).1) := by
      unfold resolveBattle
      rw [hbf.2.1, hbf.2.2.2.2.1, hfalse]
      simp only [Bool.false_eq_true, if_false, ite_false]
      rw [if_pos hw]
    refine ⟨(applyBounce c1 c2).2, (applyBounce c1 c2).1, hres, hstep _ _ hres, rfl, rfl,
      Or.inr ⟨hbf.2.2.2.1, hbf.2.2.2.2.1, hbf.2.2.2.2.2, hbf.1⟩, ?_⟩
    rw [List.mem_append, List.mem_singleton, hbf.1, hbf.2.2.2.1]
    rintro (hmem | hmem)
    · exact h1.2 hmem
    · exact h4 hmem.symm

lemma isColliding_of_sq (c1 c2 : Circle) (m : ℝ) (hm : 0 ≤ m)
    (heq : (c1.x - c2.x) * (c1.x - c2.x) + (c1.y - c2.y) * (c1.y - c2.y) = m * m)
    (hlt : m < (c1.size + c2.size) / 2) : isColliding c1 c2 := by
  unfold isColliding
  rw [sqrt_sum_sq _ _ m hm heq]
  exact hlt

/-- Witness for C4 (amended) at a blue circle and a red circle 10 apart. -/
theorem battle_effect_amended_witness :
    ∃ wn ln : Circle,
      resolveBattle
          (applyBounce { id := "b", x := 0, y := 0, vx := 1, vy := 0, color := .blue, size := 25 }
            { id := "r", x := 10, y := 0, vx := 0, vy := 0, color := .red, size := 25 }).1
          (applyBounce { id := "b", x := 0, y := 0, vx := 1, vy := 0, color := .blue, size := 25 }
            { id := "r", x := 10, y := 0, vx := 0, vy := 0, color := .red, size := 25 }).2
        = (some wn, some ln)
      ∧ pairStep (fun _ => 0) (fun _ => "s")
          { circles :=
              [{ id := "b", x := 0, y := 0, vx := 1, vy := 0, color := .blue, size := 25 },
               { id := "r", x := 10, y := 0, vx := 0, vy := 0, color := .red, size := 25 }],
            rem := [], toAdd := [], k := 0 } (0, 1)
        = { circles :=
              ([{ id := "b", x := 0, y := 0, vx := 1, vy := 0, color := .blue, size := 25 },
                { id := "r", x := 10, y := 0, vx := 0, vy := 0, color := .red, size := 25 }].set 0
                (applyBounce
                  { id := "b", x := 0, y := 0, vx := 1, vy := 0, color := .blue, size := 25 }
                  { id := "r", x := 10, y := 0, vx := 0, vy := 0, color := .red, size := 25 }).1).set 1
                (applyBounce
                  { id := "b", x := 0, y := 0, vx := 1, vy := 0, color := .blue, size := 25 }
                  { id := "r", x := 10, y := 0, vx := 0, vy := 0, color := .red, size := 25 }).2,
            rem := [ln.id],
            toAdd := [createSplitCircle (fun _ => 0) (fun _ => "s") 0 wn], k := 1 }
      ∧ (createSplitCircle (fun _ => 0) (fun _ => "s") 0 wn).color = wn.color
      ∧ (createSplitCircle (fun _ => 0) (fun _ => "s") 0 wn).size = CIRCLE_SIZE
      ∧ ((wn.id = "b" ∧ wn.color = .blue ∧ wn.size = 25 ∧ ln.id = "r")
        ∨ (wn.id = "r" ∧ wn.color = .red ∧ wn.size = 25 ∧ ln.id = "b"))
      ∧ wn.id ∉ [ln.id] :=
  battle_effect_amended (fun _ => 0) (fun _ => "s")
    { circles :=
        [{ id := "b", x := 0, y := 0, vx := 1, vy := 0, color := .blue, size := 25 },
         { id := "r", x := 10, y := 0, vx := 0, vy := 0, color := .red, size := 25 }],
      rem := [], toAdd := [], k := 0 } 0 1
    (by simp)
    (isColliding_of_sq _ _ 10 (by norm_num) (by norm_num) (by norm_num))
    (by decide) (by decide)

/-- Counterexample for C4: at a concrete head-on collision the winning blue
circle survives the frame, but with velocity reflected by the bounce
(vx = -1 instead of its pre-collision vx = 1) and position pushed away by the
overlap separation (x = -7.5 instead of 0): the winner is retained, yet not
unmodified. -/
theorem winner_not_unmodified_cex :
    checkCollisions (fun _ => 0) (fun _ => "s")
        [{ id := "b", x := 0, y := 0, vx := 1, vy := 0, color := .blue, size := 25 },
         { id := "r", x := 10, y := 0, vx := 0, vy := 0, color := .red, size := 25 }]
      = [{ id := "b", x := -7.5, y := 0, vx := -1, vy := 0, color := .blue, size := 25 },
         { id := "s", x := 2.5, y := 0, vx := -1.5, vy := -0.5, color := .blue, size := 25 }]
    ∧ ((-1 : ℝ)) ≠ 1 ∧ ((-7.5 : ℝ)) ≠ 0 := by
  set bX : Circle :=
    { id := "b", x := 0, y := 0, vx := 1, vy := 0, color := .blue, size := 25 } with hbX
  set rX : Circle :=
    { id := "r", x := 10, y := 0, vx := 0, vy := 0, color := .red, size := 25 } with hrX
  set bW : Circle :=
    { id := "b", x := -7.5, y := 0, vx := -1, vy := 0, color := .blue, size := 25 } with hbW
  set rL : Circle :=
    { id := "r", x := 17.5, y := 0, vx := 0, vy := 0, color := .red, size := 25 } with hrL
  have hd : distBetween bX rX = 10 := by
    unfold distBetween
    exact sqrt_sum_sq _ _ 10 (by norm_num) (by norm_num [hbX, hrX])
  have hab : applyBounce bX rX = (bW, rL) := by
    unfold applyBounce
    rw [hd, if_neg (by norm_num)]
    dsimp only
    norm_num [hbX, hrX, hbW, hrL, Real.sqrt_one, Real.sqrt_zero, Circle.mk.injEq,
      Prod.mk.injEq]
  have hcol : isColliding bX rX :=
    isColliding_of_sq _ _ 10 (by norm_num) (by norm_num [hbX, hrX]) (by norm_num [hbX, hrX])
  have hres : resolveBattle bW rL = (some bW, some rL) := by
    unfold resolveBattle
    rw [if_pos (by rw [hbW, hrL]; decide)]
  refine ⟨?_, by norm_num, by norm_num⟩
  unfold checkCollisions
  dsimp only
  rw [show scanPairs ([bX, rX] : List Circle).length = [(0, 1)] from rfl,
    List.foldl_cons, List.foldl_nil]
  simp only [pairStep]
  rw [show (({ circles := [bX, rX], rem := [], toAdd := [], k := 0 } :
      ScanState).circles.getD (0, 1).1 default) = bX from rfl]
  rw [show (({ circles := [bX, rX], rem := [], toAdd := [], k := 0 } :
      ScanState).circles.getD (0, 1).2 default) = rX from rfl]
  rw [if_neg (by simp), if_pos hcol, if_pos (by rw [hbX, hrX]; simp), hab]
  dsimp only
  rw [hres]
  dsimp only
  rw [show (([bX, rX].set 0 bW).set 1 rL) = [bW, rL] from rfl]
  rw [show ([bW, rL].filter fun c => c.id ∉ ([] ++ [rL.id] : List String)) = [bW] by
    rw [hbW, hrL]
    simp]
  rw [show ([] ++ [createSplitCircle (fun _ => 0) (fun _ => "s") 0 bW] : List Circle)
      = [createSplitCircle (fun _ => 0) (fun _ => "s") 0 bW] from rfl]
  unfold createSplitCircle
  rw [hbW]
  norm_num [Real.cos_zero, Real.sin_zero, Circle.mk.injEq, CIRCLE_SIZE]

/-- Counterexample for C5: in the source, each agent's force/integration/
boundary update completes before the next agent is processed, so the second
agent's force field reads the first agent's already-integrated position.  At
this concrete input (a blue circle moving from x=199 toward a red circle at
x=276, outside the 75-unit interaction radius until blue has moved) the
source's update differs from the spec's phase ordering, which reads
pre-integration positions. -/
theorem update_order_not_phased_cex :
    updateCircles
        { canvasW := 520, canvasH := 520, fieldW := 500, fieldH := 500, shape := .square }
        [{ id := "b", x := 199, y := 260, vx := 3, vy := 0, color := .blue, size := 25 },
         { id := "r", x := 276, y := 260, vx := 0, vy := 0, color := .red, size := 25 }]
      ≠ updateCirclesSpecOrder
        { canvasW := 520, canvasH := 520, fieldW := 500, fieldH := 500, shape := .square }
        [{ id := "b", x := 199, y := 260, vx := 3, vy := 0, color := .blue, size := 25 },
         { id := "r", x := 276, y := 260, vx := 0, vy := 0, color := .red, size := 25 }] := by
  set cfg : Config :=
    { canvasW := 520, canvasH := 520, fieldW := 500, fieldH := 500, shape := .square } with hcfg
  set cb : Circle :=
    { id := "b", x := 199, y := 260, vx := 3, vy := 0, color := .blue, size := 25 } with hcb
  set cr : Circle :=
    { id := "r", x := 276, y := 260, vx := 0, vy := 0, color := .red, size := 25 } with hcr
  set cbM : Circle :=
    { id := "b", x := 199 + 3, y := 260 + 0, vx := 3, vy := 0, color := .blue, size := 25 }
    with hcbM
  set crV : Circle :=
    { id := "r", x := 276, y := 260, vx := 0 + 1 / 375, vy := 0 + 0, color := .red, size := 25 }
    with hcrV
  set crM : Circle :=
    { id := "r", x := 276 + (0 + 1 / 375), y := 260 + (0 + 0), vx := 0 + 1 / 375, vy := 0 + 0,
      color := .red, size := 25 } with hcrM
  -- distances
  have hd1 : distBetween cb cr = 77 := by
    unfold distBetween
    exact sqrt_sum_sq _ _ 77 (by norm_num) (by norm_num [hcb, hcr])
  have hd2 : distBetween cr cbM = 74 := by
    unfold distBetween
    exact sqrt_sum_sq _ _ 74 (by norm_num) (by norm_num [hcr, hcbM])
  have hd3 : distBetween cr cb = 77 := by
    unfold distBetween
    exact sqrt_sum_sq _ _ 77 (by norm_num) (by norm_num [hcb, hcr])
  -- self-contributions vanish
  have hself : ∀ a : Circle, magneticContribution a a = (0, 0) := by
    intro a
    unfold magneticContribution
    rw [if_pos (Or.inl rfl)]
  -- blue sees red out of range
  have hcbr : magneticContribution cb cr = (0, 0) := by
    unfold magneticContribution
    rw [hd1, if_neg (by simp [hcb, hcr]),
      if_pos (Or.inl (by norm_num [MAGNETIC_RANGE]))]
  -- red sees the original blue out of range
  have hcrb0 : magneticContribution cr cb = (0, 0) := by
    unfold magneticContribution
    rw [hd3, if_neg (by simp [hcb, hcr]),
      if_pos (Or.inl (by norm_num [MAGNETIC_RANGE]))]
  -- red sees the moved blue in range: repulsion of magnitude (1/5) * (1/75)
  have hcrbM : magneticContribution cr cbM = (1 / 375, 0) := by
    unfold magneticContribution
    rw [hd2, if_neg (by simp [hcbM, hcr]),
      if_neg (by push_neg; constructor <;> norm_num [MAGNETIC_RANGE])]
    norm_num [hcr, hcbM, REPULSION_FORCE, MAGNETIC_RANGE, getColorRelationship]
  -- accumulated forces
  have hMb : magneticTotal cb [cb, cr] = (0, 0) := by
    unfold magneticTotal
    rw [List.foldl_cons, List.foldl_cons, List.foldl_nil, hself, hcbr]
    norm_num
  have hMr0 : magneticTotal cr [cb, cr] = (0, 0) := by
    unfold magneticTotal
    rw [List.foldl_cons, List.foldl_cons, List.foldl_nil, hself, hcrb0]
    norm_num
  have hMrM : magneticTotal cr [cbM, cr] = (1 / 375, 0) := by
    unfold magneticTotal
    rw [List.foldl_cons, List.foldl_cons, List.foldl_nil, hself, hcrbM]
    norm_num
  -- force application
  have hFb : applyMagneticForces cb [cb, cr] = cb := by
    unfold applyMagneticForces
    rw [hMb]
    dsimp only
    rw [clampSpeed_id _ (sqrt_le_of_sq_le _ _ (by norm_num [SPEED]) (by norm_num [hcb, SPEED]))]
    simp [hcb, Circle.mk.injEq]
  have hFr0 : applyMagneticForces cr [cb, cr] = cr := by
    unfold applyMagneticForces
    rw [hMr0]
    dsimp only
    rw [clampSpeed_id _ (sqrt_le_of_sq_le _ _ (by norm_num [SPEED]) (by norm_num [hcr, SPEED]))]
    simp [hcr, Circle.mk.injEq]
  have hFrM : applyMagneticForces cr [cbM, cr] = crV := by
    unfold applyMagneticForces
    rw [hMrM]
    dsimp only
    rw [clampSpeed_id _ (sqrt_le_of_sq_le _ _ (by norm_num [SPEED]) (by norm_num [hcr, SPEED]))]
  -- boundary handling is a no-op for every circle involved
  have hB : ∀ a : Circle, a.size = 25 → 22.5 < a.x → a.x < 497.5 → 22.5 < a.y → a.y < 497.5 →
      handleArenaBoundaries cfg a = a := by
    intro a hsz hx1 hx2 hy1 hy2
    rw [handleArenaBoundaries_square cfg rfl]
    exact handleSquareBoundaries_id cfg a
      (by simp only [squareLeft, hcfg, hsz]; linarith)
      (by simp only [squareRight, hcfg, hsz]; linarith)
      (by simp only [squareTop, hcfg, hsz]; linarith)
      (by simp only [squareBottom, hcfg, hsz]; linarith)
  -- the source's per-agent pass
  have hA0 : agentStep cfg [cb, cr] 0 = [cbM, cr] := by
    unfold agentStep
    rw [show ([cb, cr][0]? : Option Circle) = some cb from rfl]
    dsimp only
    rw [hFb]
    rw [show ({ cb with x := cb.x + cb.vx, y := cb.y + cb.vy } : Circle) = cbM by
      rw [hcb, hcbM]]
    rw [hB cbM (by rw [hcbM]) (by rw [hcbM]; norm_num) (by rw [hcbM]; norm_num)
      (by rw [hcbM]; norm_num) (by rw [hcbM]; norm_num)]
    rfl
  have hA1 : agentStep cfg [cbM, cr] 1 = [cbM, crM] := by
    unfold agentStep
    rw [show ([cbM, cr][1]? : Option Circle) = some cr from rfl]
    dsimp only
    rw [hFrM]
    rw [show ({ crV with x := crV.x + crV.vx, y := crV.y + crV.vy } : Circle) = crM by
      rw [hcrV, hcrM]]
    rw [hB crM (by rw [hcrM]) (by rw [hcrM]; norm_num) (by rw [hcrM]; norm_num)
      (by rw [hcrM]; norm_num) (by rw [hcrM]; norm_num)]
    rfl
  have hsrc : updateCircles cfg [cb, cr] = [cbM, crM] := by
    unfold updateCircles
    rw [show List.range ([cb, cr] : List Circle).length = [0, 1] from rfl,
      List.foldl_cons, List.foldl_cons, List.foldl_nil, hA0, hA1]
  -- the spec's phased pass
  have hspec : updateCirclesSpecOrder cfg [cb, cr] = [cbM, cr] := by
    unfold updateCirclesSpecOrder
    dsimp only
    simp only [List.map_cons, List.map_nil]
    rw [hFb, hFr0]
    rw [show ({ cb with x := cb.x + cb.vx, y := cb.y + cb.vy } : Circle) = cbM by
      rw [hcb, hcbM]]
    rw [show ({ cr with x := cr.x + cr.vx, y := cr.y + cr.vy } : Circle) = cr by
      rw [hcr]; norm_num]
    rw [hB cbM (by rw [hcbM]) (by rw [hcbM]; norm_num) (by rw [hcbM]; norm_num)
      (by rw [hcbM]; norm_num) (by rw [hcbM]; norm_num)]
    rw [hB cr (by rw [hcr]) (by rw [hcr]; norm_num) (by rw [hcr]; norm_num)
      (by rw [hcr]; norm_num) (by rw [hcr]; norm_num)]
  rw [hsrc, hspec]
  intro h
  simp only [List.cons.injEq] at h
  have hx : crM.x = cr.x := by rw [h.2.1]
  rw [hcrM, hcr] at hx
  norm_num at hx

/-- Witness for C7: a circle beyond the right edge of a 500x500 square
playfield on a 520x520 canvas is clamped back and reflected. -/
theorem square_boundary_containment_witness :
    let cfg : Config :=
      { canvasW := 520, canvasH := 520, fieldW := 500, fieldH := 500, shape := .square }
    let c : Circle := { id := "a", x := 600, y := 260, vx := 2, vy := 1, color := .blue, size := 25 }
    (25 : ℝ) ≤ 500
    ∧ (squareLeft cfg c ≤ (handleSquareBoundaries cfg c).x
        ∧ (handleSquareBoundaries cfg c).x ≤ squareRight cfg c
        ∧ squareTop cfg c ≤ (handleSquareBoundaries cfg c).y
        ∧ (handleSquareBoundaries cfg c).y ≤ squareBottom cfg c) :=
  ⟨by norm_num,
    (square_boundary_containment _ _ (by norm_num) (by norm_num)).1⟩

end GameEngine

end ColorClash
